import Mathlib

/-!
Verification of the knowledge-base retrieval and ranking engine of the
student tutoring assistant (file src/components/knowledge_graph.py,
class KnowledgeGraph).

Modelling conventions:
* Python strings are `List Char`; `str.lower()` is `lower`; the Python
  substring test `needle in hay` is `containsSub hay needle`;
  `str.split()` (split on whitespace runs, discarding empties) is
  `splitWS`.
* An Entity Record is the structure `Entity`.  `dict.get` with a default
  is modelled by total fields carrying the default for absent keys; the
  optional `type` key keeps its optionality (`etype : Option Text`)
  because the code applies the default "Unknown" at read time.
* A property value is a string, a list (whose elements we keep in their
  `str(...)` form), or some other JSON value (ignored by the code).
* The store `self.kg_data` is the explicit argument `store : List Entity`;
  methods become functions of the store.  Loops with accumulators are
  folds, preserving the source's iteration order and append order.
-/

abbrev Text := List Char

def txt (s : String) : Text := s.toList

def lower (s : Text) : Text := s.map Char.toLower

/-- Does hay start with needle?  (Both empty: true.) -/
def startsWithChars : Text → Text → Bool
  | _, [] => true
  | [], _ :: _ => false
  | a :: hs, b :: ns => (a == b) && startsWithChars hs ns

/-- Python substring containment: containsSub hay needle models the
Python expression needle in hay on strings. -/
def containsSub : Text → Text → Bool
  | hay, needle =>
    if startsWithChars hay needle then true
    else
      match hay with
      | [] => false
      | _ :: t => containsSub t needle

/-- Python str.isspace-style whitespace recognised by str.split(). -/
def isSpaceChar (c : Char) : Bool :=
  c == ' ' || c == '\t' || c == '\n' || c == '\r' || c == '\x0b' || c == '\x0c'

def splitWSAux : Text → Text → List Text
  | [], acc => if acc.isEmpty then [] else [acc.reverse]
  | c :: rest, acc =>
    if isSpaceChar c then
      if acc.isEmpty then splitWSAux rest []
      else acc.reverse :: splitWSAux rest []
    else splitWSAux rest (c :: acc)

/-- Python str.split() with no separator: whitespace runs, no empties. -/
def splitWS (s : Text) : List Text := splitWSAux s []

/-- Values of the properties mapping of an Entity Record: the code only
distinguishes str values, list values (elements used via str(...)), and
anything else (ignored). -/
inductive PropValue where
  | str (s : Text)
  | seq (vs : List Text)
  | other
deriving DecidableEq, Repr

/-- Relationship Edge: relationship dict of an Entity Record.  A missing
or null target id is modelled by the empty string, which is falsy in
Python exactly like the code's if target_id check expects. -/
structure RelEdge where
  target_id : Text
  relation_type : Text
  rel_description : Text
deriving DecidableEq, Repr

/-- Entity Record: one item of the kg_data list. -/
structure Entity where
  id : Text
  entity : Text
  etype : Option Text
  aliases : List Text
  summary : Text
  description : Text
  properties : List (Text × PropValue)
  relationships : List RelEdge
deriving DecidableEq, Repr

/-- KnowledgeGraph._entity_matches, line for line: lowercase both
sides, then the three early-return checks (direct substring, alias
substring, token membership / token substring). -/
def entity_matches (entity : Text) (kg_item : Entity) : Bool :=
  let entity_lower := lower entity
  let item_entity := lower kg_item.entity
  let aliases := kg_item.aliases.map lower
  if containsSub item_entity entity_lower || containsSub entity_lower item_entity then
    true
  else if aliases.any (fun al => containsSub entity_lower al || containsSub al entity_lower) then
    true
  else if (splitWS item_entity).contains entity_lower
      || (splitWS item_entity).any (fun word => containsSub entity_lower word) then
    true
  else
    false

/-- The Entity Matcher exactly as the claim words it: a disjunction of
(1) mutual substring containment of query and name, (2) alias
containment either way, (3) query equal to a name token or a name token
a substring of the query — all on lower-cased text. -/
def claimEntityMatches (entity : Text) (kg_item : Entity) : Bool :=
  let q := lower entity
  let name := lower kg_item.entity
  (containsSub q name || containsSub name q)
  || kg_item.aliases.any (fun al => containsSub (lower al) q || containsSub q (lower al))
  || ((splitWS name).contains q || (splitWS name).any (fun tok => containsSub q tok))

theorem any_or_comm {α : Type} (l : List α) (f g : α → Bool) :
    (l.any fun x => f x || g x) = (l.any fun x => g x || f x) := by
  induction l with
  | nil => rfl
  | cons a t ih => simp only [List.any_cons, ih, Bool.or_comm (f a) (g a)]

/-- C5: the Entity Matcher returns true, on lower-cased text, exactly
when direct substring containment (either direction), an alias
containment (either direction), or a token match (query equals a name
token, or a name token is a substring of the query) holds, and false
otherwise. -/
theorem entity_matches_iff_claim (entity : Text) (kg_item : Entity) :
    entity_matches entity kg_item = claimEntityMatches entity kg_item := by
  have hb : ∀ c d : Bool, (if c then true else d) = (c || d) := by decide
  simp only [entity_matches, claimEntityMatches, hb, Bool.or_false, List.any_map,
    Function.comp]
  rw [any_or_comm]
  cases containsSub (lower kg_item.entity) (lower entity) <;>
    cases containsSub (lower entity) (lower kg_item.entity) <;>
      simp [Bool.or_assoc, Function.comp_def]

/-! ### Generic fold lemmas

The Python methods build result lists and counters by appending inside
for-loops; these lemmas convert the corresponding folds into
filter/map/flatten form. -/

theorem foldl_append_filter_map {α β : Type} (p : α → Bool) (g : α → β) :
    ∀ (l : List α) (init : List β),
      l.foldl (fun acc x => if p x then acc ++ [g x] else acc) init
        = init ++ (l.filter p).map g := by
  intro l
  induction l with
  | nil => intro init; simp
  | cons a t ih =>
    intro init
    by_cases h : p a <;> simp [List.filter_cons, h, ih, List.append_assoc]

theorem foldl_append_map_flatten {α β : Type} (f : α → List β) :
    ∀ (l : List α) (init : List β),
      l.foldl (fun acc x => acc ++ f x) init = init ++ (l.map f).flatten := by
  intro l
  induction l with
  | nil => intro init; simp
  | cons a t ih => intro init; simp [ih, List.append_assoc]

theorem foldl_append_if_flatten {α β : Type} (p : α → Bool) (f : α → List β) :
    ∀ (l : List α) (init : List β),
      l.foldl (fun acc x => if p x then acc ++ f x else acc) init
        = init ++ ((l.filter p).map f).flatten := by
  intro l
  induction l with
  | nil => intro init; simp
  | cons a t ih =>
    intro init
    by_cases h : p a <;> simp [List.filter_cons, h, ih, List.append_assoc]

theorem foldl_add_if {α : Type} (p : α → Bool) (k : Nat) :
    ∀ (l : List α) (n : Nat),
      l.foldl (fun acc x => if p x then acc + k else acc) n
        = n + k * (l.filter p).length := by
  intro l
  induction l with
  | nil => intro n; simp
  | cons a t ih =>
    intro n
    by_cases h : p a <;> simp [List.filter_cons, h, ih, Nat.mul_add, Nat.mul_one] <;> omega

theorem foldl_add_map_sum {α : Type} (m : α → Nat) :
    ∀ (l : List α) (n : Nat),
      l.foldl (fun acc x => acc + m x) n = n + (l.map m).sum := by
  intro l
  induction l with
  | nil => intro n; simp
  | cons a t ih => intro n; simp [ih]; omega

theorem sum_map_indicator {α : Type} (p : α → Bool) :
    ∀ l : List α,
      (l.map fun x => if p x then 1 else 0).sum = (l.filter p).length := by
  intro l
  induction l with
  | nil => rfl
  | cons a t ih => by_cases h : p a <;> simp [List.filter_cons, h, ih] <;> omega

theorem foldl_preserves {α β : Type} {P : β → Prop} (f : β → α → β)
    (hf : ∀ b a, P b → P (f b a)) :
    ∀ (l : List α) (b : β), P b → P (l.foldl f b) := by
  intro l
  induction l with
  | nil => intro b hb; exact hb
  | cons a t ih => intro b hb; exact ih (f b a) (hf b a hb)

/-! ### Context Aggregator: KnowledgeGraph.query_knowledge_base -/

/-- Per-record text of query_knowledge_base: the f-string
"summary description" with one space between the two fields. -/
def record_text (item : Entity) : Text := item.summary ++ [' '] ++ item.description

/-- KnowledgeGraph.query_knowledge_base: early None if the entity list
or the store is falsy, then one pass over the store appending the
record text of every item matched by at least one candidate entity, then
a single-space join (Python str.join), with None when no item matched. -/
def query_knowledge_base (entities : List Text) (store : List Entity) : Option Text :=
  if entities.isEmpty || store.isEmpty then none
  else
    let results := store.foldl
      (fun acc item =>
        if entities.any fun e => entity_matches e item then acc ++ [record_text item]
        else acc) []
    if results.isEmpty then none else some (List.intercalate [' '] results)

/-- The Context Aggregator exactly as the claim words it: for each
candidate entity in order, the record texts of every record the Entity
Matcher accepts for that candidate (so a record matched by k candidates
appears k times), space-joined. -/
def buildContextClaim (entities : List Text) (store : List Entity) : Option Text :=
  let results :=
    (entities.map fun e =>
      (store.filter fun item => entity_matches e item).map record_text).flatten
  if results.isEmpty then none else some (List.intercalate [' '] results)

/-- The amended Context Aggregator: one pass over the store in store
order, each record that at least one candidate entity matches
contributing its record text exactly once, space-joined; None when the
entity list or the store is empty or nothing matched. -/
def buildContextAmended (entities : List Text) (store : List Entity) : Option Text :=
  if entities.isEmpty || store.isEmpty then none
  else
    let matched := store.filter fun item => entities.any fun e => entity_matches e item
    if matched.isEmpty then none
    else some (List.intercalate [' '] (matched.map record_text))

def c1Item : Entity :=
  ⟨txt (r"e1"), txt (r"a"), none, [], txt (r"s"), txt (r"d"), [], []⟩

def c1Entities : List Text := [txt (r"a"), txt (r"ab")]

/-- C1 counterexample: on the store [{entity "a", summary "s",
description "d"}] with the two distinct candidate entities "a" and "ab"
(both of which the Entity Matcher accepts for the record), the code
returns "s d" — the record contributes once, not once per matching
candidate — while the claimed per-candidate concatenation yields
"s d s d". -/
theorem query_knowledge_base_claim_counterexample :
    query_knowledge_base c1Entities [c1Item] = some (txt (r"s d"))
    ∧ buildContextClaim c1Entities [c1Item] = some (txt (r"s d s d"))
    ∧ query_knowledge_base c1Entities [c1Item] ≠ buildContextClaim c1Entities [c1Item] := by
  refine ⟨by decide, by decide, by decide⟩

/-- C1 amended: query_knowledge_base concatenates, over the store in
record order, the "summary description" text of every record matched by
at least one candidate entity, each such record contributing exactly
once however many candidates match it, joined with single spaces; it
returns none when the entity list or store is empty or no record
matched. -/
theorem query_knowledge_base_amended (entities : List Text) (store : List Entity) :
    query_knowledge_base entities store = buildContextAmended entities store := by
  unfold query_knowledge_base buildContextAmended
  by_cases hg : entities.isEmpty || store.isEmpty
  · simp [hg]
  · simp only [hg, Bool.false_eq_true, if_false]
    rw [foldl_append_filter_map (fun item => entities.any fun e => entity_matches e item)
      record_text store []]
    simp [List.isEmpty_iff]

/-! ### Relevance Ranker: KnowledgeGraph.search_knowledge -/

/-- The per-item relevance_score accumulation of search_knowledge, in
the source's order: entity name (+3), each alias (+2), summary (+1),
description (+1), then each property value — +1 per containing string
value and +1 per containing element of a list value, anything else
ignored by the isinstance checks. -/
def relevance_score (query_lower : Text) (item : Entity) : Nat :=
  let s1 := if containsSub (lower item.entity) query_lower then 0 + 3 else 0
  let s2 := item.aliases.foldl
    (fun acc al => if containsSub (lower al) query_lower then acc + 2 else acc) s1
  let s3 := if containsSub (lower item.summary) query_lower then s2 + 1 else s2
  let s4 := if containsSub (lower item.description) query_lower then s3 + 1 else s3
  item.properties.foldl
    (fun acc pv =>
      match pv.2 with
      | PropValue.str s => if containsSub (lower s) query_lower then acc + 1 else acc
      | PropValue.seq vs =>
        vs.foldl (fun a v => if containsSub (lower v) query_lower then a + 1 else a) acc
      | PropValue.other => acc) s4

/-- One ranked result of search_knowledge: the dict with keys item and
relevance_score. -/
structure SearchResult where
  item : Entity
  relevance_score : Nat
deriving DecidableEq, Repr

/-- KnowledgeGraph.search_knowledge: early [] on a falsy query or
store, one pass accumulating the items with positive relevance score in
store order, then the stable descending sort (Python list.sort with
reverse=True is stable, which is exactly mergeSort keeping the left
element when the comparison holds) and the top-5 slice. -/
def search_knowledge (query : Text) (store : List Entity) : List SearchResult :=
  if query.isEmpty || store.isEmpty then []
  else
    let query_lower := lower query
    let results := store.foldl
      (fun acc item =>
        let score := relevance_score query_lower item
        if 0 < score then acc ++ [⟨item, score⟩] else acc) []
    (results.mergeSort fun a b => Nat.ble b.relevance_score a.relevance_score).take 5


/-- Claim-side helper: does this property entry hold a string value
containing the query (case-insensitively)? -/
def strPropHit (q : Text) (pv : Text × PropValue) : Bool :=
  match pv.2 with
  | PropValue.str s => containsSub (lower s) (lower q)
  | _ => false

/-- Claim-side helper: how many elements of this property entry's
sequence value contain the query (0 for non-sequence values)? -/
def seqPropHits (q : Text) (pv : Text × PropValue) : Nat :=
  match pv.2 with
  | PropValue.seq vs => (vs.filter fun v => containsSub (lower v) (lower q)).length
  | _ => 0

/-- The scoring rule exactly as the claim words it: 3 for a name hit,
2 per alias hit, 1 each for summary and description hits, 1 per
string-valued property hit and 1 per hit element of a sequence-valued
property, summed. -/
def claimScore (query : Text) (item : Entity) : Nat :=
  (if containsSub (lower item.entity) (lower query) then 3 else 0)
  + 2 * (item.aliases.filter fun al => containsSub (lower al) (lower query)).length
  + (if containsSub (lower item.summary) (lower query) then 1 else 0)
  + (if containsSub (lower item.description) (lower query) then 1 else 0)
  + (item.properties.filter (strPropHit query)).length
  + (item.properties.map (seqPropHits query)).sum

theorem relevance_score_eq_claim (query : Text) (item : Entity) :
    relevance_score (lower query) item = claimScore query item := by
  have hprops : ∀ (l : List (Text × PropValue)) (n : Nat),
      l.foldl
        (fun acc pv =>
          match pv.2 with
          | PropValue.str s => if containsSub (lower s) (lower query) then acc + 1 else acc
          | PropValue.seq vs =>
            vs.foldl (fun a v => if containsSub (lower v) (lower query) then a + 1 else a) acc
          | PropValue.other => acc) n
      = n + (l.filter (strPropHit query)).length + (l.map (seqPropHits query)).sum := by
    intro l
    induction l with
    | nil => intro n; simp
    | cons pv t ih =>
      intro n
      obtain ⟨k, v⟩ := pv
      cases v with
      | str s =>
        by_cases h : containsSub (lower s) (lower query)
        · simp [List.filter_cons, strPropHit, seqPropHits, h, ih]
          ring
        · simp [List.filter_cons, strPropHit, seqPropHits, h, ih]
      | seq vs =>
        simp only [List.foldl_cons]
        rw [foldl_add_if (fun v => containsSub (lower v) (lower query)) 1 vs n]
        simp [List.filter_cons, strPropHit, seqPropHits, ih]
        omega
      | other => simp [List.filter_cons, strPropHit, seqPropHits, ih]
  simp only [relevance_score, claimScore]
  rw [foldl_add_if (fun al => containsSub (lower al) (lower query)) 2 item.aliases]
  rw [hprops]
  by_cases h1 : containsSub (lower item.entity) (lower query) <;>
    by_cases h2 : containsSub (lower item.summary) (lower query) <;>
      by_cases h3 : containsSub (lower item.description) (lower query) <;>
        simp [h1, h2, h3] <;> ring

theorem mergeSort_single {α : Type} (a : α) (le : α → α → Bool) :
    List.mergeSort [a] le = [a] :=
  List.perm_singleton.mp (List.mergeSort_perm [a] le)

/-- Evaluation rule used by the concrete scenarios: on a one-record
store and a non-empty query, search_knowledge is the singleton ranked
result when the record scores positively and [] otherwise. -/
theorem search_knowledge_single (query : Text) (item : Entity)
    (hq : query.isEmpty = false) :
    search_knowledge query [item]
      = if 0 < relevance_score (lower query) item
        then [SearchResult.mk item (relevance_score (lower query) item)] else [] := by
  unfold search_knowledge
  rw [if_neg (by simp [hq])]
  simp only [List.foldl_cons, List.foldl_nil]
  by_cases h : 0 < relevance_score (lower query) item
  · rw [if_pos h, if_pos h]
    simp [mergeSort_single]
  · rw [if_neg h, if_neg h]
    simp

def photoItem : Entity :=
  ⟨txt (r"e1"), txt (r"Photosynthesis"), none, [], txt (r"S1"), txt (r"D1"), [], []⟩

/-- C4: search_knowledge scores a record, case-insensitively by
substring containment, as 3 for the entity name, 2 per alias, 1 each
for summary and description, 1 per containing string-valued property
and 1 per containing element of a sequence-valued property (first
conjunct, against the claim's sum-of-points formulation claimScore);
every returned result has positive score, so score-0 records are
excluded (second conjunct); and on the one-record Photosynthesis store
the query "photosynthesis" yields exactly one result with score 3
while "xyz" yields the empty sequence. -/
theorem search_knowledge_scoring_claim :
    (∀ (query : Text) (item : Entity),
      relevance_score (lower query) item = claimScore query item)
    ∧ (∀ (query : Text) (store : List Entity),
        ((search_knowledge query store).all
          fun r => Nat.blt 0 r.relevance_score) = true)
    ∧ search_knowledge (txt (r"photosynthesis")) [photoItem]
        = [SearchResult.mk photoItem 3]
    ∧ search_knowledge (txt (r"xyz")) [photoItem] = [] := by
  refine ⟨relevance_score_eq_claim, ?_, ?_, ?_⟩
  · intro query store
    rw [List.all_eq_true]
    intro r hr
    have hpos : 0 < r.relevance_score := by
      unfold search_knowledge at hr
      by_cases hg : query.isEmpty || store.isEmpty
      · rw [if_pos hg] at hr
        simp at hr
      · rw [if_neg hg] at hr
        have hr3 := (List.mergeSort_perm _ _).mem_iff.mp (List.mem_of_mem_take hr)
        have hinv := foldl_preserves
          (P := fun acc : List SearchResult => ∀ x ∈ acc, 0 < x.relevance_score)
          (fun acc item =>
            let score := relevance_score (lower query) item
            if 0 < score then acc ++ [⟨item, score⟩] else acc)
          ?_ store [] (by simp)
        · exact hinv r hr3
        · intro b a hb x hx
          dsimp only at hx
          by_cases hs : 0 < relevance_score (lower query) a
          · rw [if_pos hs] at hx
            rcases List.mem_append.mp hx with hx | hx
            · exact hb x hx
            · rw [List.mem_singleton.mp hx]
              exact hs
          · rw [if_neg hs] at hx
            exact hb x hx
    simpa [Nat.blt_eq] using hpos
  · rw [search_knowledge_single _ _ (by decide)]
    have hsc : relevance_score (lower (txt (r"photosynthesis"))) photoItem = 3 := by decide
    rw [hsc]
    simp
  · rw [search_knowledge_single _ _ (by decide)]
    have hsc : relevance_score (lower (txt (r"xyz"))) photoItem = 0 := by decide
    rw [hsc]
    simp

/-- C3: for every query and store, search_knowledge returns at most 5
results, pairwise sorted by descending relevance score (so the first
result's score is at least every later result's score), and an empty
query or an empty store yields the empty sequence; the function is
total, so nothing is raised. -/
theorem search_knowledge_top5_sorted (query : Text) (store : List Entity) :
    (search_knowledge query store).length ≤ 5
    ∧ (search_knowledge query store).Pairwise
        (fun a b => b.relevance_score ≤ a.relevance_score)
    ∧ search_knowledge [] store = []
    ∧ search_knowledge query [] = [] := by
  refine ⟨?_, ?_, by simp [search_knowledge], by simp [search_knowledge]⟩
  · unfold search_knowledge
    by_cases hg : query.isEmpty || store.isEmpty
    · rw [if_pos hg]
      simp
    · rw [if_neg hg]
      exact List.length_take_le 5 _
  · unfold search_knowledge
    by_cases hg : query.isEmpty || store.isEmpty
    · rw [if_pos hg]
      simp
    · rw [if_neg hg]
      have hs := @List.sorted_mergeSort SearchResult
        (fun a b => Nat.ble b.relevance_score a.relevance_score)
        (by intro a b c hab hbc; simp only [Nat.ble_eq] at *; omega)
        (by intro a b; simp only [Bool.or_eq_true, Nat.ble_eq]; omega)
        (store.foldl
          (fun acc item =>
            let score := relevance_score (lower query) item
            if 0 < score then acc ++ [⟨item, score⟩] else acc) [])
      have hp := List.Pairwise.sublist (List.take_sublist 5 _) hs
      exact hp.imp (by intro a b h; simpa [Nat.ble_eq] using h)

/-! ### Relationship Walker: get_related_topics and get_related_content -/

/-- The inline generator expression
next((i for i in self.kg_data if i.get('id') == target_id), None):
first record with the given id, or none. -/
def findById (store : List Entity) (tid : Text) : Option Entity :=
  store.find? fun i => i.id == tid

/-- Adding one element to the related_topics set.  The Python set is
modelled as an insertion-ordered duplicate-free list: the source never
observes the set's enumeration order other than by listing it, and the
properties proved about the result (its element set, freedom from
duplicates, the cap) do not depend on the enumeration order. -/
def insertSet (s : List Text) (x : Text) : List Text :=
  if s.contains x then s else s ++ [x]

/-- KnowledgeGraph.get_related_topics: early [] on a falsy input, then
for every entity, for every matching item, every truthy relationship
target id that resolves adds the resolved record's entity name to the
set; finally list(...)[:10]. -/
def get_related_topics (entities : List Text) (store : List Entity) : List Text :=
  if entities.isEmpty || store.isEmpty then []
  else
    let related_topics := entities.foldl
      (fun acc e =>
        store.foldl
          (fun acc2 item =>
            if entity_matches e item then
              item.relationships.foldl
                (fun acc3 rel =>
                  if rel.target_id.isEmpty then acc3
                  else
                    match findById store rel.target_id with
                    | some related_item => insertSet acc3 related_item.entity
                    | none => acc3) acc2
            else acc2) acc) []
    related_topics.take 10

/-- One element of the get_related_content result: either the
main_topic dict of a matched record or the related_topic dict built
from a resolved relationship edge. -/
inductive ContentItem where
  | main_topic (entity summary description : Text)
  | related_topic (entity summary relationship description : Text)
deriving DecidableEq, Repr

/-- KnowledgeGraph.get_related_content: early [] on a falsy input, then
for every entity, for every matching item, append the main_topic dict
and then one related_topic dict per truthy, resolvable relationship
edge; finally the [:10] slice. -/
def get_related_content (entities : List Text) (store : List Entity) : List ContentItem :=
  if entities.isEmpty || store.isEmpty then []
  else
    let related_content := entities.foldl
      (fun acc e =>
        store.foldl
          (fun acc2 item =>
            if entity_matches e item then
              item.relationships.foldl
                (fun acc3 rel =>
                  if rel.target_id.isEmpty then acc3
                  else
                    match findById store rel.target_id with
                    | some related_item =>
                      acc3 ++ [ContentItem.related_topic related_item.entity
                        related_item.summary rel.relation_type rel.rel_description]
                    | none => acc3)
                (acc2 ++ [ContentItem.main_topic item.entity item.summary item.description])
            else acc2) acc) []
    related_content.take 10

/-- The per-edge related_topic item of get_related_content, when the
edge's target id is truthy and resolves. -/
def edgeItem (store : List Entity) (rel : RelEdge) : Option ContentItem :=
  if rel.target_id.isEmpty then none
  else
    (findById store rel.target_id).map fun related_item =>
      ContentItem.related_topic related_item.entity related_item.summary
        rel.relation_type rel.rel_description

/-- The claim's description of what one matched record contributes to
get_related_content: its main_topic item, then one related_topic item
per resolvable relationship edge in stored edge order. -/
def contentOfRecord (store : List Entity) (item : Entity) : List ContentItem :=
  ContentItem.main_topic item.entity item.summary item.description
    :: item.relationships.filterMap (edgeItem store)

/-- get_related_content exactly as the claim words it: for every
matched (entity, record) pair in encounter order, the record's
contribution, with no deduplication, truncated to 10 items. -/
def claimRelatedContent (entities : List Text) (store : List Entity) : List ContentItem :=
  ((entities.map fun e =>
      (((store.filter fun item => entity_matches e item).map
        (contentOfRecord store)).flatten)).flatten).take 10

/-- The entity names of store records that their own id-lookup
resolves to (for duplicate-free ids: all entity names; in general the
first record of each id). -/
def resolvableNames (store : List Entity) : List Text :=
  store.filterMap fun i =>
    if findById store i.id = some i then some i.entity else none

/-- KnowledgeGraph.get_entity_details: the first matching record, or
None on a falsy input or no match. -/
def get_entity_details (entity_name : Text) (store : List Entity) : Option Entity :=
  if entity_name.isEmpty || store.isEmpty then none
  else store.find? fun item => entity_matches entity_name item

/-- Invariant of the related_topics set while it is being built: no
duplicates, and every member is the entity name of a record that an
id-lookup in the store resolves to. -/
def TopicInv (store : List Entity) (s : List Text) : Prop :=
  s.Nodup ∧ ∀ x ∈ s, x ∈ resolvableNames store

theorem findById_entity_resolvable (store : List Entity) (tid : Text) (ri : Entity)
    (hf : findById store tid = some ri) : ri.entity ∈ resolvableNames store := by
  have hf2 : store.find? (fun i => i.id == tid) = some ri := hf
  have hmem : ri ∈ store := List.mem_of_find?_eq_some hf2
  have hid := List.find?_some hf2
  have hid2 : ri.id = tid := by simpa using hid
  rw [resolvableNames, List.mem_filterMap]
  refine ⟨ri, hmem, ?_⟩
  rw [if_pos (by rw [hid2]; exact hf)]

theorem insertSet_topicInv (store : List Entity) (s : List Text) (x : Text)
    (hx : x ∈ resolvableNames store) (hs : TopicInv store s) :
    TopicInv store (insertSet s x) := by
  unfold insertSet
  by_cases hc : s.contains x
  · rw [if_pos hc]
    exact hs
  · rw [if_neg hc]
    have hnm : x ∉ s := by
      intro hmem
      exact hc (List.contains_iff_exists_mem_beq.mpr ⟨x, hmem, by simp⟩)
    constructor
    · simp [List.nodup_append, hs.1, hnm]
    · intro y hy
      rcases List.mem_append.mp hy with hy | hy
      · exact hs.2 y hy
      · rw [List.mem_singleton.mp hy]
        exact hx

/-- C6: get_related_topics returns a duplicate-free sequence of at
most 10 names, each of which is the entity name of a record that an
id-lookup in the store actually resolves to (a dangling target_id
contributes nothing, and the function is total so nothing is raised),
and get_related_content returns at most 10 items. -/
theorem related_walker_bounds (entities : List Text) (store : List Entity) :
    (get_related_topics entities store).Nodup
    ∧ (get_related_topics entities store).length ≤ 10
    ∧ (∀ name ∈ get_related_topics entities store, name ∈ resolvableNames store)
    ∧ (get_related_content entities store).length ≤ 10 := by
  have hcontent : (get_related_content entities store).length ≤ 10 := by
    unfold get_related_content
    by_cases hg : entities.isEmpty || store.isEmpty
    · rw [if_pos hg]
      simp
    · rw [if_neg hg]
      exact List.length_take_le 10 _
  have htopics : TopicInv store (get_related_topics entities store)
      ∧ (get_related_topics entities store).length ≤ 10 := by
    unfold get_related_topics
    by_cases hg : entities.isEmpty || store.isEmpty
    · rw [if_pos hg]
      exact ⟨⟨List.nodup_nil, by simp⟩, by simp⟩
    · rw [if_neg hg]
      have hfold := foldl_preserves
        (P := TopicInv store)
        (fun acc e =>
          store.foldl
            (fun acc2 item =>
              if entity_matches e item then
                item.relationships.foldl
                  (fun acc3 rel =>
                    if rel.target_id.isEmpty then acc3
                    else
                      match findById store rel.target_id with
                      | some related_item => insertSet acc3 related_item.entity
                      | none => acc3) acc2
              else acc2) acc)
        ?_ entities [] ⟨List.nodup_nil, by simp⟩
      · refine ⟨⟨List.Nodup.sublist (List.take_sublist 10 _) hfold.1, ?_⟩,
          List.length_take_le 10 _⟩
        intro x hx
        exact hfold.2 x (List.mem_of_mem_take hx)
      · intro b e hb
        refine foldl_preserves _ ?_ store b hb
        intro b2 item hb2
        by_cases hm : entity_matches e item
        · rw [if_pos hm]
          refine foldl_preserves _ ?_ item.relationships b2 hb2
          intro b3 rel hb3
          by_cases he : rel.target_id.isEmpty
          · rw [if_pos he]
            exact hb3
          · rw [if_neg he]
            cases hf : findById store rel.target_id with
            | none =>
              exact hb3
            | some ri =>
              exact insertSet_topicInv store b3 ri.entity
                (findById_entity_resolvable store rel.target_id ri hf) hb3
        · rw [if_neg hm]
          exact hb2
  exact ⟨htopics.1.1, htopics.2, htopics.1.2, hcontent⟩

theorem relFoldContent (store : List Entity) :
    ∀ (rels : List RelEdge) (init : List ContentItem),
      rels.foldl
        (fun acc3 rel =>
          if rel.target_id.isEmpty then acc3
          else
            match findById store rel.target_id with
            | some related_item =>
              acc3 ++ [ContentItem.related_topic related_item.entity
                related_item.summary rel.relation_type rel.rel_description]
            | none => acc3) init
      = init ++ rels.filterMap (edgeItem store) := by
  intro rels
  induction rels with
  | nil => intro init; simp
  | cons rel t ih =>
    intro init
    simp only [List.foldl_cons, List.filterMap_cons]
    by_cases h : rel.target_id.isEmpty
    · rw [if_pos h, ih]
      simp [edgeItem, h]
    · rw [if_neg h]
      cases hf : findById store rel.target_id with
      | none =>
        rw [ih]
        simp [edgeItem, h, hf]
      | some ri =>
        rw [ih]
        simp [edgeItem, h, hf, List.append_assoc]

theorem storeFoldContent (store : List Entity) (e : Text) :
    ∀ (l : List Entity) (acc : List ContentItem),
      l.foldl
        (fun acc2 item =>
          if entity_matches e item then
            item.relationships.foldl
              (fun acc3 rel =>
                if rel.target_id.isEmpty then acc3
                else
                  match findById store rel.target_id with
                  | some related_item =>
                    acc3 ++ [ContentItem.related_topic related_item.entity
                      related_item.summary rel.relation_type rel.rel_description]
                  | none => acc3)
              (acc2 ++ [ContentItem.main_topic item.entity item.summary item.description])
          else acc2) acc
      = acc ++ ((l.filter fun item => entity_matches e item).map
          (contentOfRecord store)).flatten := by
  intro l
  induction l with
  | nil => intro acc; simp
  | cons item t ih =>
    intro acc
    simp only [List.foldl_cons, List.filter_cons]
    by_cases h : entity_matches e item
    · rw [if_pos h, if_pos h, relFoldContent store]
      rw [ih]
      simp [contentOfRecord, List.append_assoc]
    · rw [if_neg h, if_neg h]
      exact ih acc

/-- C7: get_related_content is, item for item, the claim's
description: for every matched (entity, record) pair in encounter
order, one main_topic item carrying the record's entity, summary and
description, then one related_topic item per truthy, resolvable
relationship edge in stored edge order carrying the target's entity
and summary and the edge's relation_type and description, with no
deduplication, truncated to 10 items. -/
theorem get_related_content_eq_claim (entities : List Text) (store : List Entity) :
    get_related_content entities store = claimRelatedContent entities store := by
  unfold get_related_content claimRelatedContent
  by_cases hg : entities.isEmpty || store.isEmpty
  · rw [if_pos hg]
    rcases Bool.or_eq_true_iff.mp hg with h | h
    · rw [List.isEmpty_iff.mp h]
      simp
    · rw [List.isEmpty_iff.mp h]
      simp [List.flatten_eq_nil_iff]
  · rw [if_neg hg]
    have htop : ∀ (es : List Text) (acc : List ContentItem),
        es.foldl
          (fun acc e =>
            store.foldl
              (fun acc2 item =>
                if entity_matches e item then
                  item.relationships.foldl
                    (fun acc3 rel =>
                      if rel.target_id.isEmpty then acc3
                      else
                        match findById store rel.target_id with
                        | some related_item =>
                          acc3 ++ [ContentItem.related_topic related_item.entity
                            related_item.summary rel.relation_type rel.rel_description]
                        | none => acc3)
                    (acc2 ++ [ContentItem.main_topic item.entity item.summary
                      item.description])
                else acc2) acc) acc
        = acc ++ (es.map fun e =>
            (((store.filter fun item => entity_matches e item).map
              (contentOfRecord store)).flatten)).flatten := by
      intro es
      induction es with
      | nil => intro acc; simp
      | cons e t ih =>
        intro acc
        simp only [List.foldl_cons, List.map_cons, List.flatten_cons]
        rw [storeFoldContent store e, ih]
        simp [List.append_assoc]
    rw [htop]
    simp

def einsteinItem : Entity :=
  ⟨txt (r"e1"), txt (r"Einstein"), none, [], txt (r"sum1"), txt (r"des1"), [],
    [⟨txt (r"e2"), txt (r"developed"), txt (r"theory")⟩]⟩

def relativityItem : Entity :=
  ⟨txt (r"e2"), txt (r"Relativity"), none, [], txt (r"sum2"), txt (r"des2"), [], []⟩

theorem related_walker_bounds_witness :
    txt (r"Relativity") ∈ resolvableNames [einsteinItem, relativityItem] :=
  (related_walker_bounds [txt (r"Einstein")] [einsteinItem, relativityItem]).2.2.1
    (txt (r"Relativity")) (by decide)

/-! ### Knowledge Store statistics: get_knowledge_graph_stats -/

/-- One step of the Python dict count
entity_types[t] = entity_types.get(t, 0) + 1, on an insertion-ordered
association list (Python dicts preserve insertion order). -/
def bumpType (m : List (Text × Nat)) (k : Text) : List (Text × Nat) :=
  match m with
  | [] => [(k, 1)]
  | (k2, n) :: rest => if k2 = k then (k2, n + 1) :: rest else (k2, n) :: bumpType rest k

/-- The total_relationships accumulation of get_knowledge_graph_stats.
The source computes this and the type counts in one loop over the
store; the two accumulators are independent, so they are modelled as
two folds over the same list. -/
def totalRelationshipCount (store : List Entity) : Nat :=
  store.foldl (fun n item => n + item.relationships.length) 0

/-- The two shapes of dict get_knowledge_graph_stats returns: the
early-return dict holding only total_entities, and the full dict.
Python float division is modelled exactly over the rationals. -/
inductive StatsResult where
  | emptyStats (total_entities : Nat)
  | fullStats (total_entities : Nat) (entity_types : List (Text × Nat))
      (total_relationships : Nat) (average_relationships_per_entity : Rat)
deriving DecidableEq, Repr

/-- KnowledgeGraph.get_knowledge_graph_stats: on a falsy store the
early return of the one-key dict, otherwise the loop over the store
counting types and relationship edges, and the guarded average. -/
def get_knowledge_graph_stats (store : List Entity) : StatsResult :=
  if store.isEmpty then StatsResult.emptyStats 0
  else
    let entity_types := store.foldl
      (fun m item => bumpType m (item.etype.getD (txt (r"Unknown")))) []
    let total_relationships := totalRelationshipCount store
    StatsResult.fullStats store.length entity_types total_relationships
      (if store.isEmpty then 0 else (total_relationships : Rat) / (store.length : Rat))

/-- The average_relationships_per_entity key of a stats result, when
the returned dict has one. -/
def statsAvgField : StatsResult → Option Rat
  | StatsResult.emptyStats _ => none
  | StatsResult.fullStats _ _ _ avg => some avg

/-- C2 counterexample: on the empty store, get_knowledge_graph_stats
takes the early return and produces the dict holding only
total_entities = 0 — the result has no average_relationships_per_entity
field at all, so that field is not 0 (or any other value). -/
theorem stats_empty_avg_counterexample :
    get_knowledge_graph_stats [] = StatsResult.emptyStats 0
    ∧ statsAvgField (get_knowledge_graph_stats []) = none
    ∧ statsAvgField (get_knowledge_graph_stats []) ≠ some 0 := by
  refine ⟨rfl, rfl, by simp [get_knowledge_graph_stats, statsAvgField]⟩

/-- C2 amended: on the empty store get_knowledge_graph_stats returns
the one-key dict total_entities = 0 with no
average_relationships_per_entity field (and no division error, the
function being total); on every non-empty store the
average_relationships_per_entity field equals the total
relationship-edge count divided by the total entity count, exactly
over the rationals. -/
theorem stats_avg_amended :
    get_knowledge_graph_stats ([] : List Entity) = StatsResult.emptyStats 0
    ∧ ∀ (item : Entity) (rest : List Entity),
        statsAvgField (get_knowledge_graph_stats (item :: rest))
          = some ((totalRelationshipCount (item :: rest) : Rat)
              / (((item :: rest).length : Nat) : Rat)) := by
  refine ⟨rfl, ?_⟩
  intro item rest
  simp [get_knowledge_graph_stats, statsAvgField]

/-! ### Error policy and the state-passing embedding -/

/-- C8: with the empty store — the state the constructor falls back to
when loading the data file fails — every query operation returns its
empty result: query_knowledge_base and get_entity_details return none
and the other operations return the empty sequence.  Every operation
is a total function, so no exception can reach the caller; absence is
only ever an empty, none or zero result. -/
theorem empty_store_empty_results (entities : List Text) (query entity_name : Text) :
    query_knowledge_base entities [] = none
    ∧ search_knowledge query [] = []
    ∧ get_related_topics entities [] = []
    ∧ get_related_content entities [] = []
    ∧ get_entity_details entity_name [] = none := by
  refine ⟨?_, ?_, ?_, ?_, ?_⟩ <;>
    simp [query_knowledge_base, search_knowledge, get_related_topics,
      get_related_content, get_entity_details]

/-!
State-passing embedding for the frame and idempotence claims: each
method of the class reads self.kg_data and never assigns to it nor
mutates a record (every loop only reads fields and appends to local
lists), so its state-transformer form returns the store it was given.
-/

def query_knowledge_baseSt (entities : List Text) (store : List Entity) :
    Option Text × List Entity :=
  (query_knowledge_base entities store, store)

def search_knowledgeSt (query : Text) (store : List Entity) :
    List SearchResult × List Entity :=
  (search_knowledge query store, store)

def get_related_topicsSt (entities : List Text) (store : List Entity) :
    List Text × List Entity :=
  (get_related_topics entities store, store)

def get_related_contentSt (entities : List Text) (store : List Entity) :
    List ContentItem × List Entity :=
  (get_related_content entities store, store)

def get_entity_detailsSt (entity_name : Text) (store : List Entity) :
    Option Entity × List Entity :=
  (get_entity_details entity_name store, store)

def get_knowledge_graph_statsSt (store : List Entity) :
    StatsResult × List Entity :=
  (get_knowledge_graph_stats store, store)

/-- C9: every query operation leaves the store — and with it every
record in it — exactly as it was: in the state-passing embedding the
store each operation hands back equals the store it was handed. -/
theorem query_ops_frame (entities : List Text) (query entity_name : Text)
    (store : List Entity) :
    (query_knowledge_baseSt entities store).2 = store
    ∧ (search_knowledgeSt query store).2 = store
    ∧ (get_related_topicsSt entities store).2 = store
    ∧ (get_related_contentSt entities store).2 = store
    ∧ (get_entity_detailsSt entity_name store).2 = store
    ∧ (get_knowledge_graph_statsSt store).2 = store :=
  ⟨rfl, rfl, rfl, rfl, rfl, rfl⟩

/-- C10: running any query operation twice with the same input — the
second run on the store state the first run left behind — produces the
same output both times, get_related_topics (whose intermediate set is
modelled as an insertion-ordered list, deterministic for the fixed
insertion sequence a fixed store produces) included. -/
theorem query_ops_idempotent (entities : List Text) (query entity_name : Text)
    (store : List Entity) :
    (query_knowledge_baseSt entities
        ((query_knowledge_baseSt entities store).2)).1
      = (query_knowledge_baseSt entities store).1
    ∧ (search_knowledgeSt query ((search_knowledgeSt query store).2)).1
      = (search_knowledgeSt query store).1
    ∧ (get_related_topicsSt entities ((get_related_topicsSt entities store).2)).1
      = (get_related_topicsSt entities store).1
    ∧ (get_related_contentSt entities ((get_related_contentSt entities store).2)).1
      = (get_related_contentSt entities store).1
    ∧ (get_entity_detailsSt entity_name ((get_entity_detailsSt entity_name store).2)).1
      = (get_entity_detailsSt entity_name store).1
    ∧ (get_knowledge_graph_statsSt ((get_knowledge_graph_statsSt store).2)).1
      = (get_knowledge_graph_statsSt store).1 :=
  ⟨rfl, rfl, rfl, rfl, rfl, rfl⟩
